import Mathlib

/-!
# Verification of the event-driven trading backbone

A shallow embedding of the core of the `gordon-gekko` repository:
event metadata and the process-global sequence counter
(`crates/event-bus/src/metadata.rs`, `crates/event-bus/src/util/sequence.rs`),
event frames and their bincode fixed-int serialization
(`crates/event-bus/src/envelope.rs`, `crates/event-bus/src/error.rs`),
the L2 order book (`crates/data-pipeline/src/order_book.rs`),
the WebSocket reconnect backoff (`crates/data-pipeline/src/websocket.rs`),
the WASM strategy sandbox (`crates/strategy-engine/src/sandbox.rs`),
the strategy event bridge (`crates/strategy-engine/src/event_bridge.rs`),
the core bridges (`crates/event-bus/src/core_bridges/mod.rs`) and the
dispatcher run loop (`crates/event-bus/src/dispatcher.rs`).

Modelling conventions: UUIDs are natural numbers (fresh draws of
`Uuid::new_v4` are passed in as explicit arguments); timestamps are
integers; `u64` arithmetic wraps modulo `2^64`; Rust `Decimal` values are
rationals; `Duration` values are natural numbers of nanoseconds except in
the backoff model, where millisecond rationals mirror the `f64` arithmetic
of `compute_delay`; byte buffers are lists of naturals below 256.
-/

namespace Gekko

/-- `2^64`, the modulus of Rust `u64` arithmetic. -/
def u64Mod : ℕ := 2 ^ 64

/-! ## `util/sequence.rs` -/

/-- `next_sequence` (`util/sequence.rs`): `GLOBAL_SEQUENCE.fetch_add(1, Relaxed)`.
The atomic counter is modelled by explicit state passing: the argument is the
current counter value, the result pairs the returned sequence number (the old
value) with the new counter value, wrapping as `u64::fetch_add` does. -/
def next_sequence (counter : ℕ) : ℕ × ℕ :=
  (counter, (counter + 1) % u64Mod)

/-! ## `metadata.rs` -/

/-- `EventKind` (`metadata.rs`). -/
inductive EventKind
  | Market
  | Signal
  | Order
  | Execution
  | Risk
deriving DecidableEq, Repr

/-- `Priority` (`metadata.rs`). -/
inductive Priority
  | Low
  | Normal
  | High
  | Critical
deriving DecidableEq, Repr

/-- `EventSource` (`metadata.rs`): module name plus optional instance id. -/
structure EventSource where
  module : String
  inst : Option String
deriving DecidableEq, Repr

/-- `EventSource::new`. -/
def EventSource.new (module : String) : EventSource :=
  { module := module, inst := none }

/-- `EventMetadata` (`metadata.rs`). UUID fields are naturals. -/
structure EventMetadata where
  correlation_id : ℕ
  span_id : ℕ
  parent_span_id : Option ℕ
  sequence : ℕ
  timestamp : ℤ
  priority : Priority
  source : EventSource
deriving DecidableEq, Repr

/-- `EventMetadata::with_parent` (`metadata.rs`). The two `Uuid::new_v4()`
draws (`corr`, `span`), the `Utc::now()` reading (`now`) and the global
sequence counter are passed explicitly; the result pairs the metadata with
the updated counter. -/
def EventMetadata.with_parent (source : EventSource) (priority : Priority)
    (parent_span_id : Option ℕ) (corr span : ℕ) (now : ℤ) (counter : ℕ) :
    EventMetadata × ℕ :=
  let s := next_sequence counter
  ({ correlation_id := corr
     span_id := span
     parent_span_id := parent_span_id
     sequence := s.1
     timestamp := now
     priority := priority
     source := source }, s.2)

/-- `EventMetadata::new` (`metadata.rs`): `with_parent(source, priority, None)`. -/
def EventMetadata.new (source : EventSource) (priority : Priority)
    (corr span : ℕ) (now : ℤ) (counter : ℕ) : EventMetadata × ℕ :=
  EventMetadata.with_parent source priority none corr span now counter

/-- `EventMetadata::with_correlation` (`metadata.rs`): joins an existing
correlation lineage; draws a fresh span id and sequence number. -/
def EventMetadata.with_correlation (correlation_id : ℕ) (source : EventSource)
    (priority : Priority) (span : ℕ) (now : ℤ) (counter : ℕ) :
    EventMetadata × ℕ :=
  let s := next_sequence counter
  ({ correlation_id := correlation_id
     span_id := span
     parent_span_id := none
     sequence := s.1
     timestamp := now
     priority := priority
     source := source }, s.2)

/-- `EventMetadata::child` (`metadata.rs`): keeps the correlation id, draws a
fresh span id (`span`), records the parent's span id and a fresh sequence. -/
def EventMetadata.child (m : EventMetadata) (source : EventSource)
    (priority : Priority) (span : ℕ) (now : ℤ) (counter : ℕ) :
    EventMetadata × ℕ :=
  let s := next_sequence counter
  ({ correlation_id := m.correlation_id
     span_id := span
     parent_span_id := some m.span_id
     sequence := s.1
     timestamp := now
     priority := priority
     source := source }, s.2)

/-! ## Metadata creation traces (`metadata.rs`, `event_bridge.rs`)

`StrategyEventBridge::publish` (`strategy-engine/src/event_bridge.rs`)
builds metadata with `EventMetadata::new` and then overwrites its
`sequence` with `SIGNAL_SEQUENCE.fetch_add(1, Relaxed)`, a dedicated
static counter also starting at 1.  A process run is modelled as a list
of metadata-creating operations threaded through the two counters. -/

/-- The two process-wide atomic counters: `GLOBAL_SEQUENCE`
(`util/sequence.rs`) and `SIGNAL_SEQUENCE` (`event_bridge.rs`). -/
structure GlobalState where
  global : ℕ
  signal : ℕ
deriving Repr

/-- Both static counters are initialized to 1 (`AtomicU64::new(1)`). -/
def initialState : GlobalState := { global := 1, signal := 1 }

/-- One metadata-creating operation of the process, carrying the fresh
UUID draws and clock readings its source-level counterpart obtains. -/
inductive MetaOp
  | newRoot (source : EventSource) (priority : Priority) (corr span : ℕ) (now : ℤ)
  | withCorrelation (correlation_id : ℕ) (source : EventSource) (priority : Priority)
      (span : ℕ) (now : ℤ)
  | withParent (source : EventSource) (priority : Priority) (parent : Option ℕ)
      (corr span : ℕ) (now : ℤ)
  | childOf (parent : EventMetadata) (source : EventSource) (priority : Priority)
      (span : ℕ) (now : ℤ)
  | bridgePublish (strategy_name : String) (payload_priority : Priority)
      (corr span : ℕ) (now : ℤ)

/-- Whether the operation is a strategy-event-bridge publish. -/
def MetaOp.isBridge : MetaOp → Bool
  | .bridgePublish .. => true
  | _ => false

/-- Executes one metadata-creating operation against the counters.
Each constructor mirrors its source function; `bridgePublish` mirrors the
per-payload body of `StrategyEventBridge::publish`: metadata from
`EventMetadata::new` with source `strategy.<name>` and the payload's
priority, whose `sequence` is then replaced by the next value of the
dedicated `SIGNAL_SEQUENCE` counter. -/
def applyMetaOp : MetaOp → GlobalState → EventMetadata × GlobalState
  | .newRoot src pr corr span now, s =>
      let r := EventMetadata.new src pr corr span now s.global
      (r.1, { s with global := r.2 })
  | .withCorrelation corr src pr span now, s =>
      let r := EventMetadata.with_correlation corr src pr span now s.global
      (r.1, { s with global := r.2 })
  | .withParent src pr parent corr span now, s =>
      let r := EventMetadata.with_parent src pr parent corr span now s.global
      (r.1, { s with global := r.2 })
  | .childOf parent src pr span now, s =>
      let r := parent.child src pr span now s.global
      (r.1, { s with global := r.2 })
  | .bridgePublish name pr corr span now, s =>
      let r := EventMetadata.new (EventSource.new ("strategy." ++ name)) pr corr span now s.global
      let q := next_sequence s.signal
      ({ r.1 with sequence := q.1 }, { global := r.2, signal := q.2 })

/-- Runs a list of metadata-creating operations in order, collecting the
produced metadata. -/
def runMetaOps : List MetaOp → GlobalState → List EventMetadata × GlobalState
  | [], s => ([], s)
  | op :: rest, s =>
      let r := applyMetaOp op s
      let rr := runMetaOps rest r.2
      (r.1 :: rr.1, rr.2)

/-- The emission trace of a run: for each produced event, whether it came
from the strategy event bridge, paired with its `sequence` field. -/
def emissionTrace (ops : List MetaOp) (s : GlobalState) : List (Bool × ℕ) :=
  List.zip (ops.map MetaOp.isBridge) ((runMetaOps ops s).1.map EventMetadata.sequence)

/-- A three-event run: two root events followed by one bridge-published
signal event. -/
def mixedTraceOps : List MetaOp :=
  [ .newRoot (EventSource.new "a") .Normal 0 1 0,
    .newRoot (EventSource.new "b") .Normal 2 3 0,
    .bridgePublish "alpha" .High 4 5 0 ]

/-! ## `data-pipeline/src/order_book.rs`

Rust `Decimal` prices and sizes are rationals (fixed-precision decimals
embed into `ℚ`; comparisons are exact).  The `AHashMap<Decimal, Decimal>`
of a side is modelled as an association list with at most one entry per
price: `insert` replaces, `remove` deletes, and iteration enumerates the
entries. -/

/-- `OrderBookSide` (`order_book.rs`): price → aggregate size. -/
abbrev OrderBookSide := List (ℚ × ℚ)

/-- The empty side (`OrderBookSide::default`). -/
def OrderBookSide.empty : OrderBookSide := []

/-- `self.0.remove(&price)`. -/
def OrderBookSide.remove (side : OrderBookSide) (price : ℚ) : OrderBookSide :=
  side.filter (fun e => e.1 ≠ price)

/-- `self.0.insert(price, quantity)`: replaces any existing entry. -/
def OrderBookSide.insertLevel (side : OrderBookSide) (price quantity : ℚ) :
    OrderBookSide :=
  (price, quantity) :: side.filter (fun e => e.1 ≠ price)

/-- `OrderBookSide::apply_level` (`order_book.rs`): zero quantity removes
the price, any other quantity stores it. -/
def OrderBookSide.apply_level (side : OrderBookSide) (price quantity : ℚ) :
    OrderBookSide :=
  if quantity = 0 then side.remove price else side.insertLevel price quantity

/-- Map lookup on a side (enumerability of a price). -/
def OrderBookSide.get (side : OrderBookSide) (price : ℚ) : Option ℚ :=
  (side.find? (fun e => e.1 = price)).map (·.2)

/-- One step of `Iterator::max_by` with the comparator of
`OrderBookSide::best`: `lp.cmp(rp)` when `descending`, `rp.cmp(lp)`
otherwise; on `Ordering::Greater` the accumulator is kept, otherwise the
new element is taken (as `max_by` does). -/
def bestStep (descending : Bool) (acc x : ℚ × ℚ) : ℚ × ℚ :=
  if descending then (if x.1 < acc.1 then acc else x)
  else (if acc.1 < x.1 then acc else x)

/-- `OrderBookSide::best` (`order_book.rs`): `max_by` over the entries with
the descending/ascending price comparator, `None` on an empty side. -/
def OrderBookSide.best (side : OrderBookSide) (descending : Bool) :
    Option (ℚ × ℚ) :=
  match side with
  | [] => none
  | e :: rest => some (rest.foldl (bestStep descending) e)

/-- Applies a sequence of `(price, quantity)` levels to the empty side. -/
def OrderBookSide.applyLevels (updates : List (ℚ × ℚ)) : OrderBookSide :=
  updates.foldl (fun side u => side.apply_level u.1 u.2) OrderBookSide.empty

/-- `OrderSide` of the exchange-connectors crate, as used by
`LevelTwoBook::apply`. -/
inductive OrderSide
  | Buy
  | Sell
deriving DecidableEq, Repr

/-- `OrderBookLevel` (`envelope.rs`). -/
structure OrderBookLevel where
  price : ℚ
  size : ℚ
deriving DecidableEq, Repr

/-- `OrderBookUpdate` (`order_book.rs`); the trading pair is its symbol
string. -/
structure OrderBookUpdate where
  pair : String
  side : OrderSide
  price : ℚ
  quantity : ℚ
  sequence : ℕ
  depth_hint : ℕ

/-- The `MarketPayload::OrderBookDelta` variant returned by
`LevelTwoBook::apply`. -/
structure OrderBookDeltaPayload where
  pair : String
  bid_updates : List OrderBookLevel
  ask_updates : List OrderBookLevel
  sequence : ℕ

/-- `LevelTwoBook` (`order_book.rs`). -/
structure LevelTwoBook where
  instrument : Option String
  bids : OrderBookSide
  asks : OrderBookSide
  depth : ℕ

/-- `LevelTwoBook::default`. -/
def LevelTwoBook.empty : LevelTwoBook :=
  { instrument := none, bids := OrderBookSide.empty,
    asks := OrderBookSide.empty, depth := 0 }

/-- `LevelTwoBook::apply` (`order_book.rs`): records the instrument and the
maximum observed depth hint, applies the level to the matching side, and
returns the single-level `OrderBookDelta` for the changed side. -/
def LevelTwoBook.apply (book : LevelTwoBook) (update : OrderBookUpdate) :
    OrderBookDeltaPayload × LevelTwoBook :=
  let book' : LevelTwoBook :=
    { instrument := some update.pair
      bids := if update.side = OrderSide.Buy then
                book.bids.apply_level update.price update.quantity
              else book.bids
      asks := if update.side = OrderSide.Sell then
                book.asks.apply_level update.price update.quantity
              else book.asks
      depth := max book.depth update.depth_hint }
  ({ pair := update.pair
     bid_updates := if update.side = OrderSide.Buy then
                      [{ price := update.price, size := update.quantity }]
                    else []
     ask_updates := if update.side = OrderSide.Sell then
                      [{ price := update.price, size := update.quantity }]
                    else []
     sequence := update.sequence }, book')

/-- Applies a sequence of updates to a book, discarding the emitted deltas. -/
def LevelTwoBook.applyAll (book : LevelTwoBook) (updates : List OrderBookUpdate) :
    LevelTwoBook :=
  updates.foldl (fun b u => (b.apply u).2) book

/-! ## `envelope.rs` / `error.rs`: frames and bincode fixint serialization

Rust `String`s are modelled by their UTF-8 byte sequences, `f64` values by
their 8-byte bit patterns (a natural below `2^64`), and a
`HashMap<String, String>` by the list of its entries in iteration order.
bincode configured `with_fixint_encoding().allow_trailing_bytes()` writes
enum variant tags as little-endian `u32`, collection lengths as
little-endian `u64`, an `f64` as its 8 bytes, a string as its length
followed by its bytes, and map entries in iteration order; decoding reads
a prefix and permits trailing bytes. -/

/-- Raw byte buffers. -/
abbrev Bytes := List ℕ

/-- A Rust `String`, as its UTF-8 byte sequence. -/
abbrev Str := List ℕ

/-- The `k`-byte little-endian encoding of `n` (mod `256^k`). -/
def leBytes : ℕ → ℕ → Bytes
  | 0, _ => []
  | k + 1, n => n % 256 :: leBytes k (n / 256)

/-- Reads `k` little-endian bytes, returning the value and the rest. -/
def readLE : ℕ → Bytes → Option (ℕ × Bytes)
  | 0, bs => some (0, bs)
  | _ + 1, [] => none
  | k + 1, b :: bs =>
      match readLE k bs with
      | some (n, rest) => some (b + 256 * n, rest)
      | none => none

/-- Fixint `u32` writer (bincode enum variant tags). -/
def w32 (n : ℕ) : Bytes := leBytes 4 n

/-- Fixint `u64` writer (bincode lengths and `f64` bit patterns). -/
def w64 (n : ℕ) : Bytes := leBytes 8 n

/-- Fixint `u32` reader. -/
def r32 (bs : Bytes) : Option (ℕ × Bytes) := readLE 4 bs

/-- Fixint `u64` reader. -/
def r64 (bs : Bytes) : Option (ℕ × Bytes) := readLE 8 bs

/-- bincode string writer: `u64` length then the bytes. -/
def wStr (s : Str) : Bytes := w64 s.length ++ s

/-- bincode string reader. -/
def rStr (bs : Bytes) : Option (Str × Bytes) :=
  (r64 bs).bind fun nr =>
    if nr.1 ≤ nr.2.length then some (nr.2.take nr.1, nr.2.drop nr.1) else none

/-- `Priority` serialization: bincode writes the variant index as `u32`. -/
def wPriority : Priority → Bytes
  | .Low => w32 0
  | .Normal => w32 1
  | .High => w32 2
  | .Critical => w32 3

/-- `Priority` deserialization. -/
def rPriority (bs : Bytes) : Option (Priority × Bytes) :=
  (r32 bs).bind fun tr =>
    if tr.1 = 0 then some (.Low, tr.2)
    else if tr.1 = 1 then some (.Normal, tr.2)
    else if tr.1 = 2 then some (.High, tr.2)
    else if tr.1 = 3 then some (.Critical, tr.2)
    else none

/-- `RiskAction` (`envelope.rs`); the `f64` exposure factor is carried as
its 8-byte bit pattern. -/
inductive RiskAction
  | HaltAll (reason : Str)
  | Resume (reason : Str)
  | AdjustExposure (factor : ℕ) (reason : Str)
  | Advisory (message : Str)
deriving DecidableEq, Repr

/-- `RiskAction` serialization: `u32` variant tag then the fields in
declaration order. -/
def wRiskAction : RiskAction → Bytes
  | .HaltAll reason => w32 0 ++ wStr reason
  | .Resume reason => w32 1 ++ wStr reason
  | .AdjustExposure factor reason => w32 2 ++ w64 factor ++ wStr reason
  | .Advisory message => w32 3 ++ wStr message

/-- `RiskAction` deserialization. -/
def rRiskAction (bs : Bytes) : Option (RiskAction × Bytes) :=
  (r32 bs).bind fun tr =>
    if tr.1 = 0 then
      (rStr tr.2).map fun sr => (.HaltAll sr.1, sr.2)
    else if tr.1 = 1 then
      (rStr tr.2).map fun sr => (.Resume sr.1, sr.2)
    else if tr.1 = 2 then
      (r64 tr.2).bind fun fr =>
        (rStr fr.2).map fun sr => (.AdjustExposure fr.1 sr.1, sr.2)
    else if tr.1 = 3 then
      (rStr tr.2).map fun sr => (.Advisory sr.1, sr.2)
    else none

/-- Map-entry list writer (entries in iteration order, each key then value). -/
def wEntries : List (Str × Str) → Bytes
  | [] => []
  | e :: rest => wStr e.1 ++ wStr e.2 ++ wEntries rest

/-- Map-entry list reader for a known entry count. -/
def rEntries : ℕ → Bytes → Option (List (Str × Str) × Bytes)
  | 0, bs => some ([], bs)
  | n + 1, bs =>
      (rStr bs).bind fun kr =>
        (rStr kr.2).bind fun vr =>
          (rEntries n vr.2).map fun er => ((kr.1, vr.1) :: er.1, er.2)

/-- `HashMap<String, String>` serialization: `u64` entry count then the
entries in the map's iteration order. -/
def wTags (tags : List (Str × Str)) : Bytes := w64 tags.length ++ wEntries tags

/-- `HashMap<String, String>` deserialization. -/
def rTags (bs : Bytes) : Option (List (Str × Str) × Bytes) :=
  (r64 bs).bind fun nr => rEntries nr.1 nr.2

/-- `RiskEventPayload` (`envelope.rs`): tags carried in iteration order. -/
structure RiskEventPayload where
  action : RiskAction
  priority : Priority
  tags : List (Str × Str)
deriving DecidableEq, Repr

/-- `RiskEventPayload` serialization: fields in declaration order. -/
def wRiskPayload (p : RiskEventPayload) : Bytes :=
  wRiskAction p.action ++ wPriority p.priority ++ wTags p.tags

/-- `RiskEventPayload` deserialization. -/
def rRiskPayload (bs : Bytes) : Option (RiskEventPayload × Bytes) :=
  (rRiskAction bs).bind fun ar =>
    (rPriority ar.2).bind fun pr =>
      (rTags pr.2).map fun tr =>
        ({ action := ar.1, priority := pr.1, tags := tr.1 }, tr.2)

/-- Well-formedness of a modelled string: its length fits in `u64`
(guaranteed for every Rust `String`). -/
def StrWF (s : Str) : Prop := s.length < 2 ^ 64

/-- Well-formedness of a modelled `RiskAction`: string lengths fit in
`u64`, the `f64` bit pattern fits in 8 bytes. -/
def RiskActionWF : RiskAction → Prop
  | .HaltAll reason => StrWF reason
  | .Resume reason => StrWF reason
  | .AdjustExposure factor reason => factor < 2 ^ 64 ∧ StrWF reason
  | .Advisory message => StrWF message

/-- Well-formedness of a modelled `RiskEventPayload`. -/
def RiskPayloadWF (p : RiskEventPayload) : Prop :=
  RiskActionWF p.action ∧ p.tags.length < 2 ^ 64 ∧
    ∀ e ∈ p.tags, StrWF e.1 ∧ StrWF e.2

/-- `EventBusError` (`error.rs`); `Timeout` carries nanoseconds. -/
inductive EventBusError
  | ChannelSend (msg : String)
  | ChannelReceive (msg : String)
  | Timeout (d : ℕ)
  | Serialization (msg : String)
  | Deserialization (msg : String)
  | KindMismatch (expected actual : EventKind)
  | Join (msg : String)
  | Upstream (msg : String)
deriving DecidableEq, Repr

/-- `EventFrame` (`envelope.rs`): kind tag, structurally held metadata, and
the serialized payload buffer. -/
structure EventFrame where
  kind : EventKind
  metadata : EventMetadata
  payload : Bytes
deriving DecidableEq, Repr

/-- `RiskEvent` (`envelope.rs`). -/
structure RiskEvent where
  metadata : EventMetadata
  payload : RiskEventPayload
deriving DecidableEq, Repr

/-- `RiskEvent::to_frame` (`envelope.rs`): `EventFrame::from_payload` with
kind `Risk`.  bincode serialization of a risk payload cannot fail, so the
`Result` of the source is modelled as the frame itself. -/
def RiskEvent.to_frame (e : RiskEvent) : EventFrame :=
  { kind := .Risk, metadata := e.metadata, payload := wRiskPayload e.payload }

/-- `RiskEvent::from_frame` (`envelope.rs`): rejects a non-`Risk` kind with
`KindMismatch{expected, actual}`, then decodes the payload buffer
(trailing bytes permitted). -/
def RiskEvent.from_frame (frame : EventFrame) : Except EventBusError RiskEvent :=
  if frame.kind ≠ EventKind.Risk then
    .error (.KindMismatch .Risk frame.kind)
  else
    match rRiskPayload frame.payload with
    | some (p, _) => .ok { metadata := frame.metadata, payload := p }
    | none => .error (.Deserialization "deserialization failure")

/-- The shared shape of the five `from_frame` implementations
(`envelope.rs`): the kind guard precedes payload decoding; `dec` stands
for the bincode deserializer of the event's payload type. -/
def kindGuardedFromFrame {α : Type} (expected : EventKind)
    (dec : Bytes → Option α) (frame : EventFrame) :
    Except EventBusError (EventMetadata × α) :=
  if frame.kind ≠ expected then
    .error (.KindMismatch expected frame.kind)
  else
    match dec frame.payload with
    | some p => .ok (frame.metadata, p)
    | none => .error (.Deserialization "deserialization failure")

/-- `MarketEvent::from_frame` (`envelope.rs`), with the `MarketPayload`
bincode deserializer abstracted as `dec`. -/
def MarketEvent.from_frame {α : Type} (dec : Bytes → Option α)
    (frame : EventFrame) : Except EventBusError (EventMetadata × α) :=
  kindGuardedFromFrame .Market dec frame

/-- `SignalEvent::from_frame` (`envelope.rs`). -/
def SignalEvent.from_frame {α : Type} (dec : Bytes → Option α)
    (frame : EventFrame) : Except EventBusError (EventMetadata × α) :=
  kindGuardedFromFrame .Signal dec frame

/-- `OrderEvent::from_frame` (`envelope.rs`). -/
def OrderEvent.from_frame {α : Type} (dec : Bytes → Option α)
    (frame : EventFrame) : Except EventBusError (EventMetadata × α) :=
  kindGuardedFromFrame .Order dec frame

/-- `ExecutionEvent::from_frame` (`envelope.rs`). -/
def ExecutionEvent.from_frame {α : Type} (dec : Bytes → Option α)
    (frame : EventFrame) : Except EventBusError (EventMetadata × α) :=
  kindGuardedFromFrame .Execution dec frame

/-- Two risk payloads that are equal as Rust values — same action, same
priority, and tag maps with the same entry set — but whose iteration
orders differ. -/
def permutedPayloadA : RiskEventPayload :=
  { action := .Resume [115], priority := .Normal,
    tags := [([97], [120]), ([98], [121])] }

/-- The same payload with the two tag entries iterated in the other order. -/
def permutedPayloadB : RiskEventPayload :=
  { action := .Resume [115], priority := .Normal,
    tags := [([98], [121]), ([97], [120])] }

/-! ## `strategy-engine/src/traits.rs` and `sandbox.rs`

Durations are nanoseconds.  `AccountId` is a string.  `serde_json`
encoding/decoding of host-callback bytes is abstracted by decoder
parameters (`utf8`, `decodeInstr`).  A guest `evaluate` invocation is
observable through the sequence of host calls it makes and its measured
wall-clock elapsed time. -/

/-- `OrderType` (core types; `Modelled from the spec:` the core `types`
module is not under `src/`, only its users are; the spec lists the closed
variant set). -/
inductive OrderType
  | Market
  | Limit
  | Stop
  | StopLimit
  | Iceberg
  | TWAP
  | VWAP
deriving DecidableEq, Repr

/-- `StrategySignal` (`envelope.rs`); `confidence` is the `f64` bit
pattern, the exchange is its identifier string, the metadata map is its
entry list in iteration order. -/
structure StrategySignal where
  exchange : Option String
  symbol : String
  side : OrderSide
  order_type : OrderType
  quantity : ℚ
  limit_price : Option ℚ
  confidence : ℕ
  metadata : List (String × String)
deriving DecidableEq, Repr

/-- `SignalEventPayload` (`envelope.rs`). -/
structure SignalEventPayload where
  strategy_id : ℕ
  account_id : String
  priority : Priority
  signal : StrategySignal
deriving DecidableEq, Repr

/-- `WasmSignalInstruction` (`traits.rs`). -/
structure WasmSignalInstruction where
  strategy_id : ℕ
  account_id : String
  priority : Priority
  signal : StrategySignal
deriving DecidableEq, Repr

/-- `WasmStrategyConfig` (`sandbox.rs`); nanoseconds. -/
structure WasmStrategyConfig where
  memory_limit : ℕ
  evaluation_timeout : ℕ
deriving DecidableEq, Repr

/-- `DEFAULT_MEMORY_LIMIT = 16 MiB` (`sandbox.rs`). -/
def DEFAULT_MEMORY_LIMIT : ℕ := 16 * 1024 * 1024

/-- `DEFAULT_TIMEOUT = 5 ms` (`sandbox.rs`), in nanoseconds. -/
def DEFAULT_TIMEOUT : ℕ := 5000000

/-- `WasmStrategyConfig::default` (`sandbox.rs`). -/
def WasmStrategyConfig.default : WasmStrategyConfig :=
  { memory_limit := DEFAULT_MEMORY_LIMIT, evaluation_timeout := DEFAULT_TIMEOUT }

/-- `StrategyError` (`traits.rs`); `Wasm` wraps the trap's message,
`Timeout` the elapsed nanoseconds. -/
inductive StrategyError
  | Serialization (msg : String)
  | Sandbox (msg : String)
  | Wasm (msg : String)
  | Timeout (elapsed : ℕ)
deriving DecidableEq, Repr

/-- Whether a strategy error is the `Serialization` variant. -/
def StrategyError.isSerialization : StrategyError → Bool
  | .Serialization _ => true
  | _ => false

/-- `StrategyMetrics` (`traits.rs`). -/
structure StrategyMetrics where
  evaluation_latency : ℕ
deriving DecidableEq, Repr

/-- `StrategyDecision` (`traits.rs`). -/
structure StrategyDecision where
  signals : List SignalEventPayload
  logs : List String
  metrics : StrategyMetrics
deriving DecidableEq, Repr

/-- `StrategyEnvState` (`sandbox.rs`): the store-held host buffers. -/
structure StrategyEnvState where
  logs : List String
  signals : List SignalEventPayload
deriving DecidableEq, Repr

/-- `WasmStrategyInstance` (`sandbox.rs`): the per-instance configuration
and store state. -/
structure WasmStrategyInstance where
  config : WasmStrategyConfig
  env : StrategyEnvState
deriving DecidableEq, Repr

/-- One host call made by the guest during `evaluate`, carrying the bytes
`read_guest` obtains from guest memory. -/
inductive HostCall
  | log (bytes : Bytes)
  | emit_signal (bytes : Bytes)

/-- The observable behaviour of one guest `evaluate` invocation: the host
calls it makes, in order, and the measured wall-clock elapsed nanoseconds. -/
structure GuestRun where
  host_calls : List HostCall
  elapsed : ℕ

/-- The two host functions of `link_host_functions` (`sandbox.rs`):
`host.log` swallows UTF-8 failures and appends to the log buffer;
`host.emit_signal` decodes a `WasmSignalInstruction` with `serde_json`
(failure propagates out of the host function as a trap, modelled as
`.error`) and appends the signal payload. -/
def runHostCall (utf8 : Bytes → Option String)
    (decodeInstr : Bytes → Option WasmSignalInstruction)
    (st : StrategyEnvState) : HostCall → Except String StrategyEnvState
  | .log bytes =>
      match utf8 bytes with
      | some message => .ok { st with logs := st.logs ++ [message] }
      | none => .ok st
  | .emit_signal bytes =>
      match decodeInstr bytes with
      | some instruction =>
          .ok { st with signals := st.signals ++
            [{ strategy_id := instruction.strategy_id
               account_id := instruction.account_id
               priority := instruction.priority
               signal := instruction.signal }] }
      | none => .error "serde_json deserialization failure in emit_signal"

/-- Runs the guest's host calls against the store state; the first host
error traps the wasm call, keeping the mutations made so far. -/
def runGuest (utf8 : Bytes → Option String)
    (decodeInstr : Bytes → Option WasmSignalInstruction) :
    List HostCall → StrategyEnvState → StrategyEnvState × Option String
  | [], st => (st, none)
  | c :: rest, st =>
      match runHostCall utf8 decodeInstr st c with
      | .ok st' => runGuest utf8 decodeInstr rest st'
      | .error msg => (st, some msg)

/-- `WasmStrategyInstance::evaluate` (`sandbox.rs`), from the
`evaluate.call` onwards (serialization of the context and the `alloc` and
memory-write steps are assumed successful; their failures also surface
before any host call runs).  A trap ends the call with a `Wasm` error; on
a normal return, if the measured elapsed time strictly exceeds
`evaluation_timeout`, the call fails with `Timeout(elapsed)` — without
resetting the store buffers; only on the success path are `signals` and
`logs` taken (`mem::take`) into the returned decision. -/
def WasmStrategyInstance.evaluate (utf8 : Bytes → Option String)
    (decodeInstr : Bytes → Option WasmSignalInstruction)
    (inst : WasmStrategyInstance) (run : GuestRun) :
    Except StrategyError StrategyDecision × WasmStrategyInstance :=
  let g := runGuest utf8 decodeInstr run.host_calls inst.env
  match g.2 with
  | some msg => (.error (.Wasm msg), { inst with env := g.1 })
  | none =>
      if run.elapsed > inst.config.evaluation_timeout then
        (.error (.Timeout run.elapsed), { inst with env := g.1 })
      else
        (.ok { signals := g.1.signals, logs := g.1.logs,
               metrics := { evaluation_latency := run.elapsed } },
         { inst with env := { logs := [], signals := [] } })

/-- A concrete, valid `WasmSignalInstruction` used by the sandbox
scenarios. -/
def demoInstruction : WasmSignalInstruction :=
  { strategy_id := 0
    account_id := "sandbox-account"
    priority := .High
    signal :=
      { exchange := none, symbol := "BTC-USD", side := .Buy,
        order_type := .Market, quantity := 1, limit_price := none,
        confidence := 0, metadata := [] } }

/-- The signal payload `emit_signal` appends for `demoInstruction`. -/
def demoPayload : SignalEventPayload :=
  { strategy_id := 0
    account_id := "sandbox-account"
    priority := .High
    signal :=
      { exchange := none, symbol := "BTC-USD", side := .Buy,
        order_type := .Market, quantity := 1, limit_price := none,
        confidence := 0, metadata := [] } }

/-- A decoder that accepts every byte buffer as `demoInstruction`. -/
def demoDecoder : Bytes → Option WasmSignalInstruction :=
  fun _ => some demoInstruction

/-- A sandbox instance with a 5-unit evaluation timeout and empty buffers. -/
def demoInstance : WasmStrategyInstance :=
  { config := { memory_limit := DEFAULT_MEMORY_LIMIT, evaluation_timeout := 5 }
    env := { logs := [], signals := [] } }

/-- A run that emits one signal and takes 10 time units (over budget). -/
def slowEmittingRun : GuestRun := { host_calls := [.emit_signal [0]], elapsed := 10 }

/-- A fast run that makes no host calls. -/
def quietFastRun : GuestRun := { host_calls := [], elapsed := 1 }

/-! ## `event-bus/src/core_bridges/mod.rs`

The `OrderManager` and `ExchangeConnector` collaborators are external;
their responses are passed in as function parameters.  The `Order` and
`Execution` types live in the core `types` module, which is not under
`src/`; they are modelled from the spec. -/

/-- `Order`.  Modelled from the spec: the core `types` module is missing
from the sources; §3 lists identifier, symbol, side, type, quantity,
price?, status, account_id, created_at, updated_at. -/
structure Order where
  id : ℕ
  symbol : String
  side : OrderSide
  order_type : OrderType
  quantity : ℚ
  price : Option ℚ
  status : String
  account_id : String
  created_at : ℤ
  updated_at : ℤ
deriving DecidableEq, Repr

/-- `Execution`.  Modelled from the spec: the core `types` module is
missing from the sources; §3 gives `{order_id, symbol, side, quantity,
fill_price, venue, fees, timestamp}`, and `to_execution`
(`core_bridges/mod.rs`) fills it via `Execution::new` in that field
order. -/
structure Execution where
  order_id : ℕ
  symbol : String
  side : OrderSide
  quantity : ℚ
  fill_price : ℚ
  venue : String
  fees : ℚ
deriving DecidableEq, Repr

/-- A fill reported by the exchange (`ExchangeOrder.fills[]`). -/
structure ExchangeFill where
  price : ℚ
  size : ℚ
  fee : ℚ
deriving DecidableEq, Repr

/-- `ExchangeOrder`, the connector's `place_order` response (the fields
`to_execution` consumes). -/
structure ExchangeOrder where
  id : String
  price : Option ℚ
  fills : List ExchangeFill
deriving DecidableEq, Repr

/-- `SignalEvent` (`envelope.rs`). -/
structure SignalEvent where
  metadata : EventMetadata
  payload : SignalEventPayload
deriving DecidableEq, Repr

/-- `OrderEvent` (`envelope.rs`). -/
structure OrderEvent where
  metadata : EventMetadata
  order : Order
deriving DecidableEq, Repr

/-- `ExecutionEvent` (`envelope.rs`). -/
structure ExecutionEvent where
  metadata : EventMetadata
  execution : Execution
deriving DecidableEq, Repr

/-- `SignalToOrderBridge::handle` (`core_bridges/mod.rs`): submits the
signal's order via the order manager, retrieves the created order, and
builds the `OrderEvent` to publish with metadata
`event.metadata().child("event_bus.signal_to_order", payload.priority)`.
Upstream failures are wrapped in `EventBusError::Upstream`.  The manager's
responses, the fresh span draw, the clock reading and the sequence counter
are parameters; the result pairs the published event with the updated
counter. -/
def SignalToOrderBridge.handle
    (submit_order : StrategySignal → String → Except String ℕ)
    (get_order : ℕ → Except String Order)
    (event : SignalEvent) (span : ℕ) (now : ℤ) (counter : ℕ) :
    Except EventBusError (OrderEvent × ℕ) :=
  match submit_order event.payload.signal event.payload.account_id with
  | .error e => .error (.Upstream e)
  | .ok order_id =>
      match get_order order_id with
      | .error e => .error (.Upstream e)
      | .ok order =>
          let m := event.metadata.child (EventSource.new "event_bus.signal_to_order")
            event.payload.priority span now counter
          .ok ({ metadata := m.1, order := order }, m.2)

/-- `to_execution` (`core_bridges/mod.rs`): price falls back from the
exchange price to the order price to the first fill's price to zero; fees
fold the fill fees. -/
def to_execution (order : Order) (exchange_order : ExchangeOrder)
    (exchange_id : String) : Execution :=
  let price := ((exchange_order.price.orElse fun _ => order.price).orElse
    fun _ => exchange_order.fills.head?.map (·.price)).getD 0
  let fees := exchange_order.fills.foldl (fun acc fill => acc + fill.fee) 0
  { order_id := order.id
    symbol := order.symbol
    side := order.side
    quantity := order.quantity
    fill_price := price
    venue := exchange_id
    fees := fees }

/-- `OrderExecutionBridge::handle` (`core_bridges/mod.rs`): places the
order with the exchange connector, converts the response with
`to_execution`, and builds the `ExecutionEvent` to publish with metadata
`event.metadata().child("event_bus.order_execution_bridge",
Priority::High)`. -/
def OrderExecutionBridge.handle
    (place_order : Order → Except String ExchangeOrder)
    (exchange_id : String)
    (event : OrderEvent) (span : ℕ) (now : ℤ) (counter : ℕ) :
    Except EventBusError (ExecutionEvent × ℕ) :=
  match place_order event.order with
  | .error e => .error (.Upstream e)
  | .ok exchange_order =>
      let execution := to_execution event.order exchange_order exchange_id
      let m := event.metadata.child (EventSource.new "event_bus.order_execution_bridge")
        Priority.High span now counter
      .ok ({ metadata := m.1, execution := execution }, m.2)

/-- A concrete order returned by the order manager in the C7 scenario. -/
def demoOrder : Order :=
  { id := 7, symbol := "BTC-USD", side := .Buy, order_type := .Limit,
    quantity := 1, price := some 30000, status := "validated",
    account_id := "acct-1", created_at := 0, updated_at := 0 }

/-- A concrete signal event consumed by the signal→order bridge. -/
def demoSignalEvent : SignalEvent :=
  { metadata :=
      { correlation_id := 5, span_id := 6, parent_span_id := none,
        sequence := 1, timestamp := 0, priority := .High,
        source := EventSource.new "test.signal" }
    payload :=
      { strategy_id := 0, account_id := "acct-1", priority := .High,
        signal :=
          { exchange := none, symbol := "BTC-USD", side := .Buy,
            order_type := .Limit, quantity := 1, limit_price := some 30000,
            confidence := 0, metadata := [] } } }

/-- The order event the signal→order bridge publishes for
`demoSignalEvent` with span draw 9, clock 0 and counter 1. -/
def demoOrderEvent : OrderEvent :=
  { metadata :=
      { correlation_id := 5, span_id := 9, parent_span_id := some 6,
        sequence := 1, timestamp := 0, priority := .High,
        source := EventSource.new "event_bus.signal_to_order" }
    order := demoOrder }

/-! ## `data-pipeline/src/websocket.rs`: reconnect backoff

Duration values are rationals in milliseconds; the `f64` computation of
`compute_delay` is modelled exactly over `ℚ` (an idealization of `f64`
that preserves order).  The optional jitter is a whole number of
milliseconds (`jitter.as_millis()`). -/

/-- `BackoffConfig` (`websocket.rs`). -/
structure BackoffConfig where
  initial : ℚ
  max : ℚ
  multiplier : ℚ
  jitter : Option ℕ
deriving DecidableEq, Repr

/-- `BackoffConfig::default_streaming` (`websocket.rs`). -/
def BackoffConfig.default_streaming : BackoffConfig :=
  { initial := 250, max := 30000, multiplier := 9/5, jitter := some 120 }

/-- `BackoffConfig::compute_delay` (`websocket.rs`):
`initial.mul_f64(multiplier.powi(attempt.saturating_sub(1)))`, capped at
`max`, plus — when jitter is configured — `noise % max(jitter_ms, 1)`
milliseconds, where `noise` is a random `u64` drawn from `OsRng` (passed
in as a parameter; a failed RNG read behaves as `noise = 0`). -/
def BackoffConfig.compute_delay (c : BackoffConfig) (attempt : ℕ) (noise : ℕ) : ℚ :=
  let e := c.multiplier ^ (attempt - 1)
  let delay := c.initial * e
  let delay := if delay > c.max then c.max else delay
  match c.jitter with
  | some jitter => delay + ((noise % (Nat.max jitter 1) : ℕ) : ℚ)
  | none => delay

/-- The jitter bound `max + jitter` uses: the configured jitter in
milliseconds, zero when absent. -/
def BackoffConfig.jitterBound (c : BackoffConfig) : ℚ :=
  match c.jitter with
  | some jitter => (jitter : ℚ)
  | none => 0

/-- A backoff configuration already at its cap, with jitter: initial =
max = 10 ms, multiplier 1, jitter 5 ms. -/
def cappedJitterBackoff : BackoffConfig :=
  { initial := 10, max := 10, multiplier := 1, jitter := some 5 }

/-! ## `event-bus/src/dispatcher.rs`: the run loop

One iteration of `run_impl` either takes the shutdown branch (guarded by
`is_shutdown()`) and breaks, or receives from one topic: a receive error
returns it; otherwise the registered handler for that topic runs (a topic
with no handler behaves as a handler returning `Ok(())`) and a handler
error propagates out through `?`.  The scheduler's choices — which branch
fires each iteration, with which outcome — form the step trace; the
shutdown controller's `shutdown()` call is a trace step that sets the
flag. -/

/-- The outcome of a topic receive chosen by the scheduler: an event whose
handler returns `handler_result`, or a receive error. -/
inductive RecvOutcome
  | ok (handler_result : Except EventBusError Unit)
  | recvError (e : EventBusError)

/-- One scheduler step of the dispatcher loop. -/
inductive DispatchStep
  | requestShutdown
  | selectShutdown
  | deliver (kind : EventKind) (outcome : RecvOutcome)

/-- Runs the dispatcher loop over a step trace, starting from the given
shutdown flag (`AtomicBool::new(false)` at build time).  Returns the kinds
of the events handed to handlers, and the loop's result — `none` when the
trace ends with the loop still running.  `selectShutdown` taken while the
flag is unset models nothing firing (the branch is disabled by its guard)
and the loop continues. -/
def dispatchRun : List DispatchStep → Bool →
    List EventKind × Option (Except EventBusError Unit)
  | [], _ => ([], none)
  | .requestShutdown :: rest, _ => dispatchRun rest true
  | .selectShutdown :: rest, flag =>
      if flag then ([], some (.ok ())) else dispatchRun rest flag
  | .deliver kind outcome :: rest, flag =>
      match outcome with
      | .recvError e => ([], some (.error e))
      | .ok (.ok _) =>
          let r := dispatchRun rest flag
          (kind :: r.1, r.2)
      | .ok (.error e) => ([kind], some (.error e))

end Gekko

open Gekko

lemma u64Mod_pos : 0 < u64Mod := by norm_num [u64Mod]

lemma applyMetaOp_sequence (op : MetaOp) (s : GlobalState) :
    (applyMetaOp op s).1.sequence = if op.isBridge then s.signal else s.global := by
  cases op <;> rfl

lemma applyMetaOp_global (op : MetaOp) (s : GlobalState) :
    (applyMetaOp op s).2.global = (s.global + 1) % u64Mod := by
  cases op <;> rfl

lemma applyMetaOp_signal (op : MetaOp) (s : GlobalState) :
    (applyMetaOp op s).2.signal =
      if op.isBridge then (s.signal + 1) % u64Mod else s.signal := by
  cases op <;> rfl

lemma emissionTrace_nil (s : GlobalState) : emissionTrace [] s = [] := rfl

lemma emissionTrace_cons (op : MetaOp) (rest : List MetaOp) (s : GlobalState) :
    emissionTrace (op :: rest) s =
      (op.isBridge, (applyMetaOp op s).1.sequence) ::
        emissionTrace rest (applyMetaOp op s).2 := rfl

/-- Every event in a run's emission trace carries a sequence at least the
starting value of the counter it was drawn from, provided neither counter
wraps during the run. -/
lemma emissionTrace_lb : ∀ (ops : List MetaOp) (s : GlobalState),
    s.global + ops.length ≤ u64Mod → s.signal + ops.length ≤ u64Mod →
    ∀ x ∈ emissionTrace ops s,
      (x.1 = false → s.global ≤ x.2) ∧ (x.1 = true → s.signal ≤ x.2) := by
  intro ops
  induction ops with
  | nil =>
      intro s _ _ x hx
      simp [emissionTrace_nil] at hx
  | cons op rest ih =>
      intro s hg hs x hx
      rw [emissionTrace_cons, List.mem_cons] at hx
      rcases hx with hx | hx
      · subst hx
        constructor
        · intro hf
          have hf' : op.isBridge = false := hf
          simp [applyMetaOp_sequence, hf']
        · intro ht
          have ht' : op.isBridge = true := ht
          simp [applyMetaOp_sequence, ht']
      · rcases rest with _ | ⟨op2, rest2⟩
        · simp [emissionTrace_nil] at hx
        · have hg1 : s.global + 1 < u64Mod := by
            simp only [List.length_cons] at hg
            omega
          have hs1 : s.signal + 1 ≤ u64Mod := by
            simp only [List.length_cons] at hs
            omega
          have hG : (applyMetaOp op s).2.global = s.global + 1 := by
            rw [applyMetaOp_global, Nat.mod_eq_of_lt hg1]
          have hg' : (applyMetaOp op s).2.global + (op2 :: rest2).length ≤ u64Mod := by
            rw [hG]
            simp only [List.length_cons] at hg ⊢
            omega
          have hS : s.signal ≤ (applyMetaOp op s).2.signal ∧
              (applyMetaOp op s).2.signal + (op2 :: rest2).length ≤ u64Mod := by
            rw [applyMetaOp_signal]
            by_cases hb : op.isBridge
            · rw [if_pos hb]
              have hs2 : s.signal + 1 < u64Mod := by
                simp only [List.length_cons] at hs
                omega
              rw [Nat.mod_eq_of_lt hs2]
              simp only [List.length_cons] at hs ⊢
              omega
            · rw [if_neg hb]
              simp only [List.length_cons] at hs ⊢
              omega
          have ih' := ih (applyMetaOp op s).2 hg' hS.2 x hx
          refine ⟨fun hf => ?_, fun ht => ?_⟩
          · have := ih'.1 hf
            omega
          · have := ih'.2 ht
            omega

/-- C1 (amended): in any run of metadata-creating operations in which
neither process-wide counter wraps, any two events drawn from the same
counter appear with strictly increasing sequence numbers: events whose
metadata comes from `EventMetadata::new`, `with_correlation`, `with_parent`
or `child` are strictly monotonic among themselves, and signal events
published by the strategy event bridge (which draw from the dedicated
`SIGNAL_SEQUENCE` counter) are strictly monotonic among themselves. -/
theorem C1_sequence_monotonic_per_counter : ∀ (ops : List MetaOp) (s : GlobalState),
    s.global + ops.length ≤ u64Mod → s.signal + ops.length ≤ u64Mod →
    List.Pairwise (fun a b : Bool × ℕ => a.1 = b.1 → a.2 < b.2)
      (emissionTrace ops s) := by
  intro ops
  induction ops with
  | nil =>
      intro s _ _
      rw [emissionTrace_nil]
      exact List.Pairwise.nil
  | cons op rest ih =>
      intro s hg hs
      rw [emissionTrace_cons]
      have hgM : (applyMetaOp op s).2.global + rest.length ≤ u64Mod := by
        rw [applyMetaOp_global]
        rcases rest with _ | ⟨op2, rest2⟩
        · simpa using le_of_lt (Nat.mod_lt _ u64Mod_pos)
        · have : s.global + 1 < u64Mod := by
            simp only [List.length_cons] at hg
            omega
          rw [Nat.mod_eq_of_lt this]
          simp only [List.length_cons] at hg ⊢
          omega
      have hsM : (applyMetaOp op s).2.signal + rest.length ≤ u64Mod := by
        rw [applyMetaOp_signal]
        by_cases hb : op.isBridge
        · rw [if_pos hb]
          rcases rest with _ | ⟨op2, rest2⟩
          · simpa using le_of_lt (Nat.mod_lt _ u64Mod_pos)
          · have : s.signal + 1 < u64Mod := by
              simp only [List.length_cons] at hs
              omega
            rw [Nat.mod_eq_of_lt this]
            simp only [List.length_cons] at hs ⊢
            omega
        · rw [if_neg hb]
          simp only [List.length_cons] at hs
          omega
      refine List.Pairwise.cons ?_ (ih _ hgM hsM)
      intro b hb htag
      rcases rest with _ | ⟨op2, rest2⟩
      · simp [emissionTrace_nil] at hb
      · have hlb := emissionTrace_lb (op2 :: rest2) (applyMetaOp op s).2 hgM hsM b hb
        simp only at htag
        rw [applyMetaOp_sequence]
        by_cases hbr : op.isBridge
        · rw [if_pos hbr]
          have hbt : b.1 = true := by rw [← htag, hbr]
          have h1 := hlb.2 hbt
          have hs2 : s.signal + 1 < u64Mod := by
            simp only [List.length_cons] at hs
            omega
          have hSg : (applyMetaOp op s).2.signal = s.signal + 1 := by
            rw [applyMetaOp_signal, if_pos hbr, Nat.mod_eq_of_lt hs2]
          omega
        · rw [if_neg hbr]
          have hbf : b.1 = false := by
            rw [← htag]
            simpa using hbr
          have h1 := hlb.1 hbf
          have hg2 : s.global + 1 < u64Mod := by
            simp only [List.length_cons] at hg
            omega
          have hGl : (applyMetaOp op s).2.global = s.global + 1 := by
            rw [applyMetaOp_global, Nat.mod_eq_of_lt hg2]
          omega

/-- Witness for C1 (amended) on the concrete three-event run. -/
theorem C1_sequence_monotonic_per_counter_witness :
    List.Pairwise (fun a b : Bool × ℕ => a.1 = b.1 → a.2 < b.2)
      (emissionTrace mixedTraceOps initialState) :=
  C1_sequence_monotonic_per_counter mixedTraceOps initialState
    (by decide) (by decide)

/-- C1 counterexample: in the run with two root events followed by one
bridge-published signal event, the emitted sequences are `[1, 2, 1]` — the
bridge overwrites the global sequence with the dedicated `SIGNAL_SEQUENCE`
counter's value — so the later bridge event's sequence is NOT greater than
the earlier events', refuting process-global strict monotonicity as
claimed. -/
theorem C1_counterexample :
    ((runMetaOps mixedTraceOps initialState).1.map EventMetadata.sequence
        = [1, 2, 1]) ∧
    ¬ List.Pairwise (· < ·)
        ((runMetaOps mixedTraceOps initialState).1.map EventMetadata.sequence) := by
  have h : (runMetaOps mixedTraceOps initialState).1.map EventMetadata.sequence
      = [1, 2, 1] := by decide
  refine ⟨h, ?_⟩
  rw [h]
  decide

/-- C2: for every metadata `m`, source and priority, `m.child(source, priority)`
keeps `correlation_id`, sets `parent_span_id` to `some m.span_id`, and its
`span_id` is the fresh `Uuid::new_v4` draw, which is distinct from `m.span_id`
whenever the draw is fresh (the hypothesis `hfresh`). -/
theorem C2_child_preserves_lineage (m : Gekko.EventMetadata)
    (source : Gekko.EventSource) (priority : Gekko.Priority)
    (span : ℕ) (now : ℤ) (counter : ℕ) (hfresh : span ≠ m.span_id) :
    ((m.child source priority span now counter).1.correlation_id = m.correlation_id) ∧
    ((m.child source priority span now counter).1.parent_span_id = some m.span_id) ∧
    ((m.child source priority span now counter).1.span_id = span) ∧
    ((m.child source priority span now counter).1.span_id ≠ m.span_id) := by
  refine ⟨rfl, rfl, rfl, ?_⟩
  simpa [Gekko.EventMetadata.child] using hfresh

/-- Witness for C2 at a concrete parent metadata and a concrete fresh span. -/
theorem C2_child_preserves_lineage_witness :
    (({ correlation_id := 7, span_id := 3, parent_span_id := none, sequence := 1,
        timestamp := 0, priority := Gekko.Priority.Normal,
        source := Gekko.EventSource.new "test" } :
        Gekko.EventMetadata).child (Gekko.EventSource.new "bridge")
        Gekko.Priority.High 4 5 6).1.correlation_id = 7 := by
  have h := C2_child_preserves_lineage
    { correlation_id := 7, span_id := 3, parent_span_id := none, sequence := 1,
      timestamp := 0, priority := Gekko.Priority.Normal,
      source := Gekko.EventSource.new "test" }
    (Gekko.EventSource.new "bridge") Gekko.Priority.High 4 5 6 (by decide)
  exact h.1

/-! ### Order book lemmas -/

lemma OrderBookSide.get_remove (side : OrderBookSide) (p : ℚ) :
    (side.remove p).get p = none := by
  have h : (side.filter (fun e => e.1 ≠ p)).find? (fun e => e.1 = p) = none := by
    rw [List.find?_eq_none]
    intro x hx
    have hm := List.mem_filter.mp hx
    simpa using hm.2
  simp [OrderBookSide.get, OrderBookSide.remove, h]

lemma OrderBookSide.get_insertLevel (side : OrderBookSide) (p q : ℚ) :
    (side.insertLevel p q).get p = some q := by
  simp [OrderBookSide.insertLevel, OrderBookSide.get, List.find?_cons]

lemma mem_apply_level {side : OrderBookSide} {p q : ℚ} {e : ℚ × ℚ}
    (he : e ∈ side.apply_level p q) : e ∈ side ∨ (e = (p, q) ∧ q ≠ 0) := by
  unfold OrderBookSide.apply_level at he
  by_cases h : q = 0
  · rw [if_pos h] at he
    exact Or.inl (List.mem_of_mem_filter he)
  · rw [if_neg h] at he
    rcases List.mem_cons.mp he with h1 | h1
    · exact Or.inr ⟨h1, h⟩
    · exact Or.inl (List.mem_of_mem_filter h1)

lemma foldl_apply_nonzero : ∀ (updates : List (ℚ × ℚ)) (side : OrderBookSide),
    (∀ e ∈ side, e.2 ≠ 0) →
    ∀ e ∈ updates.foldl (fun s u => s.apply_level u.1 u.2) side, e.2 ≠ 0 := by
  intro updates
  induction updates with
  | nil =>
      intro side h e he
      rw [List.foldl_nil] at he
      exact h e he
  | cons u rest ih =>
      intro side h e he
      rw [List.foldl_cons] at he
      refine ih _ ?_ e he
      intro x hx
      rcases mem_apply_level hx with h1 | h1
      · exact h x h1
      · rw [h1.1]
        exact h1.2

lemma bestStep_cases (d : Bool) (acc x : ℚ × ℚ) :
    bestStep d acc x = acc ∨ bestStep d acc x = x := by
  unfold bestStep
  split
  · split
    · exact Or.inl rfl
    · exact Or.inr rfl
  · split
    · exact Or.inl rfl
    · exact Or.inr rfl

lemma bestFold_mem (d : Bool) : ∀ (rest : List (ℚ × ℚ)) (acc : ℚ × ℚ),
    rest.foldl (bestStep d) acc = acc ∨ rest.foldl (bestStep d) acc ∈ rest := by
  intro rest
  induction rest with
  | nil => intro acc; exact Or.inl rfl
  | cons x rs ih =>
      intro acc
      rw [List.foldl_cons]
      rcases ih (bestStep d acc x) with h | h
      · rw [h]
        rcases bestStep_cases d acc x with h1 | h1
        · exact Or.inl h1
        · rw [h1]
          exact Or.inr (List.mem_cons_self x rs)
      · exact Or.inr (List.mem_cons_of_mem _ h)

lemma bestStep_true_le (acc x : ℚ × ℚ) :
    acc.1 ≤ (bestStep true acc x).1 ∧ x.1 ≤ (bestStep true acc x).1 := by
  unfold bestStep
  by_cases h : x.1 < acc.1
  · simp only [if_true, if_pos h]
    exact ⟨le_refl _, le_of_lt h⟩
  · simp only [if_true, if_neg h]
    exact ⟨le_of_not_lt h, le_refl _⟩

lemma bestStep_false_le (acc x : ℚ × ℚ) :
    (bestStep false acc x).1 ≤ acc.1 ∧ (bestStep false acc x).1 ≤ x.1 := by
  unfold bestStep
  by_cases h : acc.1 < x.1
  · simp only [Bool.false_eq_true, if_false, if_pos h]
    exact ⟨le_refl _, le_of_lt h⟩
  · simp only [Bool.false_eq_true, if_false, if_neg h]
    exact ⟨le_of_not_lt h, le_refl _⟩

lemma bestFold_max : ∀ (rest : List (ℚ × ℚ)) (acc : ℚ × ℚ),
    acc.1 ≤ (rest.foldl (bestStep true) acc).1 ∧
    ∀ y ∈ rest, y.1 ≤ (rest.foldl (bestStep true) acc).1 := by
  intro rest
  induction rest with
  | nil =>
      intro acc
      rw [List.foldl_nil]
      exact ⟨le_refl _, by intro y hy; cases hy⟩
  | cons x rs ih =>
      intro acc
      rw [List.foldl_cons]
      have hstep := bestStep_true_le acc x
      have ih' := ih (bestStep true acc x)
      refine ⟨le_trans hstep.1 ih'.1, ?_⟩
      intro y hy
      rcases List.mem_cons.mp hy with h | h
      · subst h
        exact le_trans hstep.2 ih'.1
      · exact ih'.2 y h

lemma bestFold_min : ∀ (rest : List (ℚ × ℚ)) (acc : ℚ × ℚ),
    (rest.foldl (bestStep false) acc).1 ≤ acc.1 ∧
    ∀ y ∈ rest, (rest.foldl (bestStep false) acc).1 ≤ y.1 := by
  intro rest
  induction rest with
  | nil =>
      intro acc
      rw [List.foldl_nil]
      exact ⟨le_refl _, by intro y hy; cases hy⟩
  | cons x rs ih =>
      intro acc
      rw [List.foldl_cons]
      have hstep := bestStep_false_le acc x
      have ih' := ih (bestStep false acc x)
      refine ⟨le_trans ih'.1 hstep.1, ?_⟩
      intro y hy
      rcases List.mem_cons.mp hy with h | h
      · subst h
        exact le_trans ih'.1 hstep.2
      · exact ih'.2 y h

lemma best_max_spec (side : OrderBookSide) (r : ℚ × ℚ)
    (h : side.best true = some r) : r ∈ side ∧ ∀ y ∈ side, y.1 ≤ r.1 := by
  rcases side with _ | ⟨e, rest⟩
  · simp [OrderBookSide.best] at h
  · have hr : rest.foldl (bestStep true) e = r := by
      simpa [OrderBookSide.best] using h
    subst hr
    have hm := bestFold_mem true rest e
    have hb := bestFold_max rest e
    constructor
    · rcases hm with h1 | h1
      · rw [h1]
        exact List.mem_cons_self e rest
      · exact List.mem_cons_of_mem _ h1
    · intro y hy
      rcases List.mem_cons.mp hy with h1 | h1
      · subst h1
        exact hb.1
      · exact hb.2 y h1

lemma best_min_spec (side : OrderBookSide) (r : ℚ × ℚ)
    (h : side.best false = some r) : r ∈ side ∧ ∀ y ∈ side, r.1 ≤ y.1 := by
  rcases side with _ | ⟨e, rest⟩
  · simp [OrderBookSide.best] at h
  · have hr : rest.foldl (bestStep false) e = r := by
      simpa [OrderBookSide.best] using h
    subst hr
    have hm := bestFold_mem false rest e
    have hb := bestFold_min rest e
    constructor
    · rcases hm with h1 | h1
      · rw [h1]
        exact List.mem_cons_self e rest
      · exact List.mem_cons_of_mem _ h1
    · intro y hy
      rcases List.mem_cons.mp hy with h1 | h1
      · subst h1
        exact hb.1
      · exact hb.2 y h1

lemma best_eq_none_iff (side : OrderBookSide) (d : Bool) :
    side.best d = none ↔ side = [] := by
  rcases side with _ | ⟨e, rest⟩ <;> simp [OrderBookSide.best]

lemma applyLevels_append_single (us : List (ℚ × ℚ)) (u : ℚ × ℚ) :
    OrderBookSide.applyLevels (us ++ [u]) =
      (OrderBookSide.applyLevels us).apply_level u.1 u.2 := by
  simp [OrderBookSide.applyLevels, List.foldl_append]

lemma apply_bids (book : LevelTwoBook) (u : OrderBookUpdate) :
    (book.apply u).2.bids =
      if u.side = OrderSide.Buy then book.bids.apply_level u.price u.quantity
      else book.bids := rfl

lemma apply_asks (book : LevelTwoBook) (u : OrderBookUpdate) :
    (book.apply u).2.asks =
      if u.side = OrderSide.Sell then book.asks.apply_level u.price u.quantity
      else book.asks := rfl

lemma applyAll_cons (book : LevelTwoBook) (u : OrderBookUpdate)
    (rest : List OrderBookUpdate) :
    book.applyAll (u :: rest) = ((book.apply u).2).applyAll rest := by
  simp [LevelTwoBook.applyAll]

lemma applyAll_nonzero : ∀ (updates : List OrderBookUpdate) (book : LevelTwoBook),
    (∀ e ∈ book.bids, e.2 ≠ 0) → (∀ e ∈ book.asks, e.2 ≠ 0) →
    (∀ e ∈ (book.applyAll updates).bids, e.2 ≠ 0) ∧
    (∀ e ∈ (book.applyAll updates).asks, e.2 ≠ 0) := by
  intro updates
  induction updates with
  | nil =>
      intro book hb ha
      exact ⟨hb, ha⟩
  | cons u rest ih =>
      intro book hb ha
      rw [applyAll_cons]
      have hb' : ∀ e ∈ (book.apply u).2.bids, e.2 ≠ 0 := by
        rw [apply_bids]
        by_cases hside : u.side = OrderSide.Buy
        · rw [if_pos hside]
          intro e he
          rcases mem_apply_level he with h1 | h1
          · exact hb e h1
          · rw [h1.1]
            exact h1.2
        · rw [if_neg hside]
          exact hb
      have ha' : ∀ e ∈ (book.apply u).2.asks, e.2 ≠ 0 := by
        rw [apply_asks]
        by_cases hside : u.side = OrderSide.Sell
        · rw [if_pos hside]
          intro e he
          rcases mem_apply_level he with h1 | h1
          · exact ha e h1
          · rw [h1.1]
            exact h1.2
        · rw [if_neg hside]
          exact ha
      exact ih (book.apply u).2 hb' ha'

/-- C6: over any sequence of applied levels, applying size 0 at a price
makes that price non-enumerable, applying size `q > 0` stores `q` at the
price; `best` is `none` exactly on an empty side, returns the entry of
maximum price when `descending = true` (the bid side) and of minimum price
when `descending = false` (the ask side); and no zero-size level is ever
enumerable, on a single side or on either side of a `LevelTwoBook` after
any update sequence. -/
theorem C6_order_book_semantics (us : List (ℚ × ℚ)) (p q : ℚ) (hq : 0 < q) :
    (OrderBookSide.applyLevels (us ++ [(p, 0)])).get p = none ∧
    (OrderBookSide.applyLevels (us ++ [(p, q)])).get p = some q ∧
    (∀ d : Bool, (OrderBookSide.applyLevels us).best d = none ↔
        OrderBookSide.applyLevels us = []) ∧
    (∀ r, (OrderBookSide.applyLevels us).best true = some r →
        r ∈ OrderBookSide.applyLevels us ∧
        ∀ y ∈ OrderBookSide.applyLevels us, y.1 ≤ r.1) ∧
    (∀ r, (OrderBookSide.applyLevels us).best false = some r →
        r ∈ OrderBookSide.applyLevels us ∧
        ∀ y ∈ OrderBookSide.applyLevels us, r.1 ≤ y.1) ∧
    (∀ e ∈ OrderBookSide.applyLevels us, e.2 ≠ 0) ∧
    (∀ (updates : List OrderBookUpdate),
        (∀ e ∈ (LevelTwoBook.empty.applyAll updates).bids, e.2 ≠ 0) ∧
        (∀ e ∈ (LevelTwoBook.empty.applyAll updates).asks, e.2 ≠ 0)) := by
  refine ⟨?_, ?_, ?_, ?_, ?_, ?_, ?_⟩
  · rw [applyLevels_append_single]
    show ((OrderBookSide.applyLevels us).apply_level p 0).get p = none
    rw [OrderBookSide.apply_level, if_pos rfl]
    exact OrderBookSide.get_remove _ p
  · rw [applyLevels_append_single]
    show ((OrderBookSide.applyLevels us).apply_level p q).get p = some q
    rw [OrderBookSide.apply_level, if_neg hq.ne']
    exact OrderBookSide.get_insertLevel _ p q
  · intro d
    exact best_eq_none_iff _ d
  · intro r hr
    exact best_max_spec _ r hr
  · intro r hr
    exact best_min_spec _ r hr
  · exact foldl_apply_nonzero us OrderBookSide.empty (by intro e he; cases he)
  · intro updates
    exact applyAll_nonzero updates LevelTwoBook.empty
      (by intro e he; cases he) (by intro e he; cases he)

/-- Witness for C6 on a concrete level sequence. -/
theorem C6_order_book_semantics_witness :
    (OrderBookSide.applyLevels
        ([((100 : ℚ), (5/2 : ℚ))] ++ [((100 : ℚ), 0)])).get 100 = none :=
  (C6_order_book_semantics [((100 : ℚ), (5/2 : ℚ))] 100 3 (by norm_num)).1

/-! ### Serialization round-trip lemmas -/

lemma readLE_leBytes : ∀ (k n : ℕ), n < 256 ^ k → ∀ rest : Bytes,
    readLE k (leBytes k n ++ rest) = some (n, rest) := by
  intro k
  induction k with
  | zero =>
      intro n hn rest
      have h0 : n = 0 := by simpa using hn
      subst h0
      rfl
  | succ k ih =>
      intro n hn rest
      have hdiv : n / 256 < 256 ^ k := by
        rw [Nat.div_lt_iff_lt_mul (by norm_num : (0:ℕ) < 256)]
        calc n < 256 ^ (k + 1) := hn
          _ = 256 ^ k * 256 := by ring
      show readLE (k + 1) ((n % 256 :: leBytes k (n / 256)) ++ rest) = some (n, rest)
      rw [List.cons_append]
      simp only [readLE]
      rw [ih (n / 256) hdiv rest]
      show some (n % 256 + 256 * (n / 256), rest) = some (n, rest)
      rw [Nat.mod_add_div]

lemma r32_w32 (n : ℕ) (h : n < 256 ^ 4) (rest : Bytes) :
    r32 (w32 n ++ rest) = some (n, rest) := by
  unfold r32 w32
  exact readLE_leBytes 4 n h rest

lemma r64_w64 (n : ℕ) (h : n < 256 ^ 8) (rest : Bytes) :
    r64 (w64 n ++ rest) = some (n, rest) := by
  unfold r64 w64
  exact readLE_leBytes 8 n h rest

lemma rStr_wStr (s : Str) (hs : StrWF s) (rest : Bytes) :
    rStr (wStr s ++ rest) = some (s, rest) := by
  have hs' : s.length < 256 ^ 8 := by
    have h := hs
    unfold StrWF at h
    norm_num at h ⊢
    exact h
  unfold wStr rStr
  rw [List.append_assoc, r64_w64 s.length hs' (s ++ rest)]
  simp only [Option.some_bind]
  rw [if_pos (by simp : s.length ≤ (s ++ rest).length)]
  rw [List.take_left, List.drop_left]

lemma rPriority_wPriority (p : Priority) (rest : Bytes) :
    rPriority (wPriority p ++ rest) = some (p, rest) := by
  cases p <;>
    · unfold wPriority rPriority
      rw [r32_w32 _ (by norm_num) rest]
      simp only [Option.some_bind]
      norm_num

lemma rRiskAction_wRiskAction (a : RiskAction) (ha : RiskActionWF a)
    (rest : Bytes) : rRiskAction (wRiskAction a ++ rest) = some (a, rest) := by
  cases a with
  | HaltAll reason =>
      have hr : StrWF reason := ha
      show rRiskAction ((w32 0 ++ wStr reason) ++ rest) = some (.HaltAll reason, rest)
      unfold rRiskAction
      rw [List.append_assoc, r32_w32 0 (by norm_num) _]
      simp [rStr_wStr reason hr rest]
  | Resume reason =>
      have hr : StrWF reason := ha
      show rRiskAction ((w32 1 ++ wStr reason) ++ rest) = some (.Resume reason, rest)
      unfold rRiskAction
      rw [List.append_assoc, r32_w32 1 (by norm_num) _]
      simp [rStr_wStr reason hr rest]
  | AdjustExposure factor reason =>
      have hf : factor < 2 ^ 64 := ha.1
      have hf' : factor < 256 ^ 8 := by
        norm_num at hf ⊢
        exact hf
      have hr : StrWF reason := ha.2
      show rRiskAction ((w32 2 ++ w64 factor ++ wStr reason) ++ rest)
        = some (.AdjustExposure factor reason, rest)
      unfold rRiskAction
      rw [List.append_assoc, List.append_assoc, r32_w32 2 (by norm_num) _]
      simp [r64_w64 factor hf', rStr_wStr reason hr rest]
  | Advisory message =>
      have hr : StrWF message := ha
      show rRiskAction ((w32 3 ++ wStr message) ++ rest) = some (.Advisory message, rest)
      unfold rRiskAction
      rw [List.append_assoc, r32_w32 3 (by norm_num) _]
      simp [rStr_wStr message hr rest]

lemma rEntries_wEntries : ∀ (tags : List (Str × Str)) (rest : Bytes),
    (∀ e ∈ tags, StrWF e.1 ∧ StrWF e.2) →
    rEntries tags.length (wEntries tags ++ rest) = some (tags, rest) := by
  intro tags
  induction tags with
  | nil => intro rest _; rfl
  | cons e es ih =>
      intro rest h
      have he := h e (List.mem_cons_self e es)
      show rEntries (es.length + 1) ((wStr e.1 ++ wStr e.2 ++ wEntries es) ++ rest)
        = some (e :: es, rest)
      simp only [rEntries]
      rw [List.append_assoc, List.append_assoc, rStr_wStr e.1 he.1]
      simp only [Option.some_bind]
      rw [rStr_wStr e.2 he.2]
      simp only [Option.some_bind]
      rw [ih rest (fun x hx => h x (List.mem_cons_of_mem e hx)), Option.map_some']

lemma rTags_wTags (tags : List (Str × Str)) (rest : Bytes)
    (hlen : tags.length < 2 ^ 64)
    (h : ∀ e ∈ tags, StrWF e.1 ∧ StrWF e.2) :
    rTags (wTags tags ++ rest) = some (tags, rest) := by
  have hlen' : tags.length < 256 ^ 8 := by
    norm_num at hlen ⊢
    exact hlen
  unfold wTags rTags
  rw [List.append_assoc, r64_w64 tags.length hlen' _]
  simp only [Option.some_bind]
  exact rEntries_wEntries tags rest h

lemma rRiskPayload_wRiskPayload (p : RiskEventPayload) (hp : RiskPayloadWF p)
    (rest : Bytes) : rRiskPayload (wRiskPayload p ++ rest) = some (p, rest) := by
  obtain ⟨ha, hlen, htags⟩ := hp
  unfold wRiskPayload rRiskPayload
  rw [List.append_assoc, List.append_assoc, rRiskAction_wRiskAction p.action ha]
  simp only [Option.some_bind]
  rw [rPriority_wPriority p.priority]
  simp only [Option.some_bind]
  rw [rTags_wTags p.tags rest hlen htags, Option.map_some']

/-- C4 (amended): for every well-formed risk event, decoding its frame
yields the event back, and re-encoding the decoded event yields a
byte-identical payload buffer whenever the decoded tag map iterates its
entries in the original order (which this model represents; in particular
this always holds when the map has at most one entry). -/
theorem C4_risk_frame_round_trip (e : RiskEvent) (hwf : RiskPayloadWF e.payload) :
    RiskEvent.from_frame e.to_frame = Except.ok e ∧
    ∀ d, RiskEvent.from_frame e.to_frame = Except.ok d →
      d.to_frame.payload = e.to_frame.payload := by
  have hdec : rRiskPayload (wRiskPayload e.payload) = some (e.payload, []) := by
    have h := rRiskPayload_wRiskPayload e.payload hwf []
    simpa using h
  have h1 : RiskEvent.from_frame e.to_frame = Except.ok e := by
    unfold RiskEvent.from_frame RiskEvent.to_frame
    rw [if_neg (by simp)]
    simp only []
    rw [hdec]
  refine ⟨h1, fun d hd => ?_⟩
  rw [h1] at hd
  cases hd
  rfl

/-- Witness for C4 (amended) on a concrete one-tag risk event (the
round-trip seed test's shape). -/
theorem C4_risk_frame_round_trip_witness :
    RiskEvent.from_frame
      (RiskEvent.to_frame
        { metadata := { correlation_id := 1, span_id := 2, parent_span_id := none,
                        sequence := 1, timestamp := 0, priority := Priority.Normal,
                        source := EventSource.new "test.risk" }
          payload := { action := .Resume [115], priority := .Normal,
                       tags := [([114], [100])] } }) =
      Except.ok
        { metadata := { correlation_id := 1, span_id := 2, parent_span_id := none,
                        sequence := 1, timestamp := 0, priority := Priority.Normal,
                        source := EventSource.new "test.risk" }
          payload := { action := .Resume [115], priority := .Normal,
                       tags := [([114], [100])] } } :=
  (C4_risk_frame_round_trip _
    (by refine ⟨?_, ?_, ?_⟩ <;> simp [RiskActionWF, StrWF])).1

/-- C4 counterexample: the payload byte buffer is not determined by the
Rust value of the payload.  `permutedPayloadA` and `permutedPayloadB`
denote the same `RiskEventPayload` (same action, same priority, tag maps
with the same entry set) but serialize to different buffers, because
bincode writes map entries in the `HashMap`'s iteration order, which is
unspecified and differs between instances.  The decoded event's rebuilt
`HashMap` may therefore re-encode to the permuted buffer, refuting the
claimed unconditional byte-identity of re-encoding. -/
theorem C4_byte_identity_counterexample :
    permutedPayloadA.tags.Perm permutedPayloadB.tags ∧
    permutedPayloadA.action = permutedPayloadB.action ∧
    permutedPayloadA.priority = permutedPayloadB.priority ∧
    wRiskPayload permutedPayloadA ≠ wRiskPayload permutedPayloadB := by
  refine ⟨?_, rfl, rfl, ?_⟩
  · decide
  · decide

/-- C5: for every frame whose kind differs from the decoded event type's
kind, `from_frame` returns exactly the `KindMismatch` error carrying the
expected and the actual kind, and no other error — for all five event
kinds' `from_frame` operations (the payload deserializer is never
consulted). -/
theorem C5_from_frame_kind_mismatch (frame : EventFrame) :
    (∀ {α : Type} (dec : Bytes → Option α), frame.kind ≠ EventKind.Market →
      MarketEvent.from_frame dec frame =
        Except.error (.KindMismatch .Market frame.kind)) ∧
    (∀ {α : Type} (dec : Bytes → Option α), frame.kind ≠ EventKind.Signal →
      SignalEvent.from_frame dec frame =
        Except.error (.KindMismatch .Signal frame.kind)) ∧
    (∀ {α : Type} (dec : Bytes → Option α), frame.kind ≠ EventKind.Order →
      OrderEvent.from_frame dec frame =
        Except.error (.KindMismatch .Order frame.kind)) ∧
    (∀ {α : Type} (dec : Bytes → Option α), frame.kind ≠ EventKind.Execution →
      ExecutionEvent.from_frame dec frame =
        Except.error (.KindMismatch .Execution frame.kind)) ∧
    (frame.kind ≠ EventKind.Risk →
      RiskEvent.from_frame frame =
        Except.error (.KindMismatch .Risk frame.kind)) := by
  refine ⟨?_, ?_, ?_, ?_, ?_⟩
  · intro α dec h
    unfold MarketEvent.from_frame kindGuardedFromFrame
    rw [if_pos h]
  · intro α dec h
    unfold SignalEvent.from_frame kindGuardedFromFrame
    rw [if_pos h]
  · intro α dec h
    unfold OrderEvent.from_frame kindGuardedFromFrame
    rw [if_pos h]
  · intro α dec h
    unfold ExecutionEvent.from_frame kindGuardedFromFrame
    rw [if_pos h]
  · intro h
    unfold RiskEvent.from_frame
    rw [if_pos h]

/-- Witness for C5: decoding a market-kind frame as a risk event yields
exactly the kind-mismatch error. -/
theorem C5_from_frame_kind_mismatch_witness :
    RiskEvent.from_frame
      { kind := .Market
        metadata := { correlation_id := 1, span_id := 2, parent_span_id := none,
                      sequence := 1, timestamp := 0, priority := Priority.Normal,
                      source := EventSource.new "test" }
        payload := [] } =
      Except.error (.KindMismatch .Risk .Market) :=
  (C5_from_frame_kind_mismatch _).2.2.2.2 (by decide)

/-! ### Sandbox theorems -/

/-- C3: at the concrete failing input, the code's behaviour: an evaluation
that emits one signal and exceeds its 5-unit timeout (elapsed 10) returns
`StrategyError::Timeout(10)` — but the emitted signal stays in the store
buffer (the timeout path skips the `mem::take` reset), so the next, fast,
quiet evaluation on the same instance returns a decision CONTAINING the
timed-out evaluation's signal, contradicting the claim (and the spec's
"MUST refuse to publish partial results"). -/
theorem C3_timeout_then_leak :
    (Gekko.WasmStrategyInstance.evaluate (fun _ => none) demoDecoder
        demoInstance slowEmittingRun).1
      = Except.error (.Timeout 10) ∧
    (Gekko.WasmStrategyInstance.evaluate (fun _ => none) demoDecoder
        (Gekko.WasmStrategyInstance.evaluate (fun _ => none) demoDecoder
          demoInstance slowEmittingRun).2
        quietFastRun).1
      = Except.ok { signals := [demoPayload], logs := [],
                    metrics := { evaluation_latency := 1 } } := by
  constructor
  · rfl
  · rfl

/-- If a prefix of the guest's host calls succeeds and the next is an
`emit_signal` whose bytes fail to decode, the guest run traps with the
deserialization message. -/
lemma runGuest_trap_at (utf8 : Bytes → Option String)
    (dec : Bytes → Option WasmSignalInstruction) (bytes : Bytes)
    (hdec : dec bytes = none) :
    ∀ (pre post : List HostCall) (st : StrategyEnvState),
    (runGuest utf8 dec pre st).2 = none →
    (runGuest utf8 dec (pre ++ HostCall.emit_signal bytes :: post) st).2
      = some "serde_json deserialization failure in emit_signal" := by
  intro pre
  induction pre with
  | nil =>
      intro post st _
      show (runGuest utf8 dec (HostCall.emit_signal bytes :: post) st).2 = _
      simp only [runGuest, runHostCall, hdec]
  | cons c rest ih =>
      intro post st hok
      show (runGuest utf8 dec (c :: (rest ++ HostCall.emit_signal bytes :: post)) st).2 = _
      simp only [runGuest] at hok ⊢
      cases h : runHostCall utf8 dec st c with
      | ok st' =>
          rw [h] at hok
          simp only [] at hok
          exact ih post st' hok
      | error msg =>
          rw [h] at hok
          simp at hok

/-- C9 (amended): for every sandbox evaluation in which the module calls
the host `emit_signal` import with bytes that fail to deserialize as a
`WasmSignalInstruction`, the evaluation fails, and the failure is
surfaced to the caller as a `Wasm` (trap) error — the `serde_json` error
propagates out of the host function as a wasm trap and
`evaluate.call(...)` maps it through `StrategyError::Wasm`, not through
`StrategyError::Serialization`. -/
theorem C9_emit_signal_decode_trap (utf8 : Bytes → Option String)
    (dec : Bytes → Option WasmSignalInstruction)
    (inst : WasmStrategyInstance) (pre post : List HostCall)
    (bytes : Bytes) (elapsed : ℕ) (hdec : dec bytes = none)
    (hpre : (runGuest utf8 dec pre inst.env).2 = none) :
    (WasmStrategyInstance.evaluate utf8 dec inst
        { host_calls := pre ++ HostCall.emit_signal bytes :: post,
          elapsed := elapsed }).1
      = Except.error (.Wasm "serde_json deserialization failure in emit_signal") := by
  unfold WasmStrategyInstance.evaluate
  have h := runGuest_trap_at utf8 dec bytes hdec pre post inst.env hpre
  simp only []
  rw [h]

/-- Witness for C9 (amended) at a concrete instance and byte buffer. -/
theorem C9_emit_signal_decode_trap_witness :
    (Gekko.WasmStrategyInstance.evaluate (fun _ => none) (fun _ => none)
        demoInstance { host_calls := [HostCall.emit_signal [7]], elapsed := 0 }).1
      = Except.error (.Wasm "serde_json deserialization failure in emit_signal") :=
  C9_emit_signal_decode_trap (fun _ => none) (fun _ => none) demoInstance
    [] [] [7] 0 rfl rfl

/-- C9 counterexample: at the concrete failing decode, the surfaced error
is the `Wasm` variant, and it is not a `Serialization` error — refuting
the claim that host-callback deserialization failures surface as
`Serialization`. -/
theorem C9_counterexample :
    (Gekko.WasmStrategyInstance.evaluate (fun _ => none) (fun _ => none)
        demoInstance { host_calls := [HostCall.emit_signal [7]], elapsed := 0 }).1
      = Except.error (.Wasm "serde_json deserialization failure in emit_signal") ∧
    (match (Gekko.WasmStrategyInstance.evaluate (fun _ => none) (fun _ => none)
        demoInstance { host_calls := [HostCall.emit_signal [7]], elapsed := 0 }).1 with
     | .error e => e.isSerialization
     | .ok _ => false) = false := by
  constructor
  · rfl
  · rfl

/-! ### Core bridge theorems -/

/-- C7: every event a core bridge emits carries its parent's correlation
id and a child span: the signal→order bridge publishes its `OrderEvent`
with metadata `child("event_bus.signal_to_order", payload.priority)` of
the signal's metadata, and the order→execution bridge publishes its
`ExecutionEvent` with metadata `child("event_bus.order_execution_bridge",
Priority::High)` of the order's metadata. -/
theorem C7_bridge_lineage :
    (∀ (submit : StrategySignal → String → Except String ℕ)
       (get : ℕ → Except String Order) (event : SignalEvent)
       (span : ℕ) (now : ℤ) (counter : ℕ) (ev : OrderEvent) (c : ℕ),
       SignalToOrderBridge.handle submit get event span now counter
          = .ok (ev, c) →
       ev.metadata.correlation_id = event.metadata.correlation_id ∧
       ev.metadata.parent_span_id = some event.metadata.span_id ∧
       ev.metadata.priority = event.payload.priority ∧
       ev.metadata.source = EventSource.new "event_bus.signal_to_order") ∧
    (∀ (place : Order → Except String ExchangeOrder) (exchange_id : String)
       (event : OrderEvent) (span : ℕ) (now : ℤ) (counter : ℕ)
       (ev : ExecutionEvent) (c : ℕ),
       OrderExecutionBridge.handle place exchange_id event span now counter
          = .ok (ev, c) →
       ev.metadata.correlation_id = event.metadata.correlation_id ∧
       ev.metadata.parent_span_id = some event.metadata.span_id ∧
       ev.metadata.priority = Priority.High ∧
       ev.metadata.source = EventSource.new "event_bus.order_execution_bridge") := by
  constructor
  · intro submit get event span now counter ev c h
    unfold SignalToOrderBridge.handle at h
    cases hs : submit event.payload.signal event.payload.account_id with
    | error e =>
        rw [hs] at h
        simp at h
    | ok order_id =>
        rw [hs] at h
        simp only [] at h
        cases hg : get order_id with
        | error e =>
            rw [hg] at h
            simp at h
        | ok order =>
            rw [hg] at h
            simp only [Except.ok.injEq, Prod.mk.injEq] at h
            obtain ⟨hev, _⟩ := h
            subst hev
            exact ⟨rfl, rfl, rfl, rfl⟩
  · intro place exchange_id event span now counter ev c h
    unfold OrderExecutionBridge.handle at h
    cases hp : place event.order with
    | error e =>
        rw [hp] at h
        simp at h
    | ok exchange_order =>
        rw [hp] at h
        simp only [Except.ok.injEq, Prod.mk.injEq] at h
        obtain ⟨hev, _⟩ := h
        subst hev
        exact ⟨rfl, rfl, rfl, rfl⟩

/-- Witness for C7 at a concrete signal event and order manager. -/
theorem C7_bridge_lineage_witness :
    demoOrderEvent.metadata.correlation_id
        = demoSignalEvent.metadata.correlation_id ∧
    demoOrderEvent.metadata.parent_span_id
        = some demoSignalEvent.metadata.span_id ∧
    demoOrderEvent.metadata.priority = demoSignalEvent.payload.priority ∧
    demoOrderEvent.metadata.source
        = EventSource.new "event_bus.signal_to_order" :=
  C7_bridge_lineage.1 (fun _ _ => .ok 7) (fun _ => .ok demoOrder)
    demoSignalEvent 9 0 1 demoOrderEvent 2 rfl

/-! ### Backoff theorems -/

lemma clamp_eq_min (a b : ℚ) : (if a > b then b else a) = min a b := by
  rcases le_or_lt a b with h | h
  · rw [if_neg (not_lt.mpr h), min_eq_left h]
  · rw [if_pos h, min_eq_right h.le]

lemma noiseTerm_le (j noise : ℕ) :
    ((noise % Nat.max j 1 : ℕ) : ℚ) ≤ (j : ℚ) := by
  have h0 : 0 < Nat.max j 1 := lt_of_lt_of_le one_pos (Nat.le_max_right j 1)
  have hmod : noise % Nat.max j 1 < Nat.max j 1 := Nat.mod_lt _ h0
  have hle : noise % Nat.max j 1 ≤ j := by
    rcases Nat.eq_zero_or_pos j with hj | hj
    · subst hj
      simp [Nat.mod_one]
    · have h1 : Nat.max j 1 ≤ j := Nat.max_le.mpr ⟨Nat.le_refl j, hj⟩
      exact Nat.le_of_lt (Nat.lt_of_lt_of_le hmod h1)
  exact_mod_cast hle

/-- C8 (amended): the reconnect delay for attempt `n` equals
`min(initial * multiplier^(n-1), max)` plus a jitter term strictly below
`max(jitter_ms, 1)` and hence at most the configured jitter; the
jitter-free delay is monotone in the attempt number (given the documented
`multiplier ≥ 1` and a nonnegative initial delay); and every delay —
jitter included — is bounded by `max + jitter`.  Monotonicity of the full
delay across attempts fails because the jitter is drawn afresh each
attempt (see the counterexample). -/
theorem C8_backoff_delay (c : BackoffConfig) (hm : 1 ≤ c.multiplier)
    (hi : 0 ≤ c.initial) (attempt noise : ℕ) :
    (c.compute_delay attempt noise =
      min (c.initial * c.multiplier ^ (attempt - 1)) c.max +
        (match c.jitter with
         | some j => ((noise % Nat.max j 1 : ℕ) : ℚ)
         | none => 0)) ∧
    c.compute_delay attempt 0 ≤ c.compute_delay (attempt + 1) 0 ∧
    c.compute_delay attempt noise ≤ c.max + c.jitterBound := by
  have hformula : ∀ (a n : ℕ), c.compute_delay a n =
      min (c.initial * c.multiplier ^ (a - 1)) c.max +
        (match c.jitter with
         | some j => ((n % Nat.max j 1 : ℕ) : ℚ)
         | none => 0) := by
    intro a n
    unfold BackoffConfig.compute_delay
    cases hj : c.jitter with
    | some j => simp only [hj, clamp_eq_min]
    | none => simp only [hj, clamp_eq_min, add_zero]
  have hbase : ∀ a : ℕ,
      min (c.initial * c.multiplier ^ (a - 1)) c.max ≤
        min (c.initial * c.multiplier ^ (a + 1 - 1)) c.max := by
    intro a
    refine min_le_min ?_ (le_refl _)
    refine mul_le_mul_of_nonneg_left ?_ hi
    exact pow_le_pow_right₀ hm (by omega)
  refine ⟨hformula attempt noise, ?_, ?_⟩
  · rw [hformula attempt 0, hformula (attempt + 1) 0]
    cases hj : c.jitter with
    | some j =>
        simp only [Nat.zero_mod, Nat.cast_zero, add_zero]
        exact hbase attempt
    | none =>
        simp only [add_zero]
        exact hbase attempt
  · rw [hformula attempt noise]
    refine add_le_add (min_le_right _ _) ?_
    unfold BackoffConfig.jitterBound
    cases c.jitter with
    | some j => exact noiseTerm_le j noise
    | none => exact le_refl 0

/-- Witness for C8 (amended): the capped configuration's first-attempt
delay with noise 3 is bounded by `max + jitter`. -/
theorem C8_backoff_delay_witness :
    cappedJitterBackoff.compute_delay 1 3 ≤
      cappedJitterBackoff.max + cappedJitterBackoff.jitterBound :=
  (C8_backoff_delay cappedJitterBackoff
    (by norm_num [cappedJitterBackoff]) (by norm_num [cappedJitterBackoff])
    1 3).2.2

/-- C8 counterexample: with `initial = max = 10 ms`, `multiplier = 1` and
`jitter = 5 ms`, attempt 1 may draw noise 3 (delay 13 ms) while attempt 2
draws noise 0 (delay 10 ms), so the delay for attempt `n+1` is NOT always
at least the delay for attempt `n`. -/
theorem C8_backoff_counterexample :
    cappedJitterBackoff.compute_delay 1 3 = 13 ∧
    cappedJitterBackoff.compute_delay 2 0 = 10 ∧
    ¬ cappedJitterBackoff.compute_delay 1 3 ≤
        cappedJitterBackoff.compute_delay 2 0 := by
  refine ⟨?_, ?_, ?_⟩ <;>
    norm_num [BackoffConfig.compute_delay, cappedJitterBackoff]

/-! ### Dispatcher theorems -/

lemma dispatchRun_ok_requires_shutdown : ∀ (steps : List DispatchStep),
    (dispatchRun steps false).2 = some (Except.ok ()) →
    DispatchStep.requestShutdown ∈ steps := by
  intro steps
  induction steps with
  | nil =>
      intro h
      simp [dispatchRun] at h
  | cons s rest ih =>
      intro h
      cases s with
      | requestShutdown => exact List.mem_cons_self _ _
      | selectShutdown =>
          simp only [dispatchRun] at h
          rw [if_neg (by simp)] at h
          exact List.mem_cons_of_mem _ (ih h)
      | deliver kind outcome =>
          cases outcome with
          | recvError e => simp [dispatchRun] at h
          | ok hr =>
              cases hr with
              | ok u =>
                  simp only [dispatchRun] at h
                  exact List.mem_cons_of_mem _ (ih h)
              | error e => simp [dispatchRun] at h

/-- C10: the dispatcher's handler error policy is uniformly
propagate-and-terminate: a handler error on a dequeued event makes `run`
return that error immediately with no further events dispatched; a
receive error on any topic makes `run` return that error; and `run`
returns `Ok(())` only if shutdown was requested (the shutdown select
branch is guarded by the flag, which only `shutdown()` sets). -/
theorem C10_dispatcher_error_policy :
    (∀ (kind : EventKind) (e : EventBusError) (rest : List DispatchStep)
       (flag : Bool),
       dispatchRun (DispatchStep.deliver kind (.ok (.error e)) :: rest) flag
         = ([kind], some (.error e))) ∧
    (∀ (kind : EventKind) (e : EventBusError) (rest : List DispatchStep)
       (flag : Bool),
       dispatchRun (DispatchStep.deliver kind (.recvError e) :: rest) flag
         = ([], some (.error e))) ∧
    (∀ steps : List DispatchStep,
       (dispatchRun steps false).2 = some (Except.ok ()) →
       DispatchStep.requestShutdown ∈ steps) := by
  refine ⟨fun _ _ _ _ => rfl, fun _ _ _ _ => rfl,
    dispatchRun_ok_requires_shutdown⟩

/-- Witness for C10 on the concrete trace that requests shutdown and then
takes the shutdown branch. -/
theorem C10_dispatcher_error_policy_witness :
    DispatchStep.requestShutdown ∈
      [DispatchStep.requestShutdown, DispatchStep.selectShutdown] :=
  C10_dispatcher_error_policy.2.2
    [DispatchStep.requestShutdown, DispatchStep.selectShutdown] rfl
